import Mathlib

/-!
Shallow embedding of the Task Graph Execution Engine of the AI_JOB_AGENT
repository (TypeScript), together with theorems settling the specification
claims about it.

Embedded components:
* the dependency-level assignment (BFS leveling) of the `TaskGraph` React
  component (frontend, `graphNodes` useMemo);
* the retry/backoff loop, the `loop` action and the `search` action of
  `executeStep` in `extension/src/contents/jobhunter.ts`;
* the background service worker's persistent task monitor (storage under the
  single `activeTask` key, 3-second poll tick, startup staleness cleanup);
* the popup's `pollTaskStatus` loop with its 60-attempt ceiling.

JavaScript `x || y` defaulting on possibly-missing fields is modelled by
explicit `Option` values with the JS falsiness of `0`, `""` and `undefined`.
-/

namespace JobAgent

/-- JS `a || b` for an optional number field: `undefined` and `0` are falsy. -/
def jsOrNat : Option Nat → Nat → Nat
  | none, b => b
  | some 0, b => b
  | some (n+1), _ => n + 1

/-- JS `a || b` for an optional string field: `undefined` and `""` are falsy. -/
def jsOrStr : Option String → String → String
  | none, b => b
  | some s, b => if s = "" then b else s

/-- JS template interpolation of a possibly-`undefined` string. -/
def jsTemplate : Option String → String
  | none => "undefined"
  | some s => s

/-- JS truthiness of an optional string (`undefined` and `""` are falsy). -/
def jsTruthy : Option String → Bool
  | none => false
  | some s => s ≠ ""

/-- JS `Array.prototype.slice(-5)`: the suffix holding the last (up to) 5
elements. -/
def sliceLast5 (l : List String) : List String :=
  l.drop (l.length - 5)

/-! ## Task graph leveling

From the frontend `TaskGraph` component (`graphNodes` useMemo): root steps are
the steps with no dependencies; a BFS loop assigns levels, each round pushing
the not-yet-processed current-level steps and then recomputing the next level
as the steps whose dependencies are all processed.  The `while` loop is
embedded with explicit fuel (`steps.length + 1` rounds are proved sufficient
for the properties below; each nonempty round processes at least one new id).
-/

/-- A step of the plan, as in the frontend `TaskStep` interface (only the
fields the leveling reads, plus the identifying metadata). -/
structure TaskStep where
  id : String
  name : String
  action : String
  status : String
  dependencies : List String
deriving Repr, DecidableEq

/-- A leveled node, as in the component's `GraphNode` interface. -/
structure GraphNode where
  step : TaskStep
  level : Nat
  parallelGroup : Option String
deriving Repr, DecidableEq

/-- The filter predicate of the `nextLevelSteps` computation: not yet
processed, and every dependency processed. -/
def stepReady (processed : List String) (s : TaskStep) : Bool :=
  !(processed.contains s.id) && s.dependencies.all (fun d => processed.contains d)

/-- `steps.filter(s => !processedIds.has(s.id) && s.dependencies.every(dep => processedIds.has(dep)))`. -/
def nextLevelSteps (steps : List TaskStep) (processed : List String) : List TaskStep :=
  steps.filter (stepReady processed)

/-- The `currentLevelSteps.forEach` body: push each step not yet processed as
a node of the current level and record its id as processed. -/
def pushLevel (pg : Option String) (lvl : Nat) :
    List TaskStep → List String → List GraphNode × List String
  | [], processed => ([], processed)
  | s :: rest, processed =>
    if processed.contains s.id then pushLevel pg lvl rest processed
    else
      (⟨s, lvl, pg⟩ :: (pushLevel pg lvl rest (s.id :: processed)).1,
        (pushLevel pg lvl rest (s.id :: processed)).2)

/-- `steps.filter(s => s.dependencies.length === 0)` (the root steps). -/
def rootSteps (steps : List TaskStep) : List TaskStep :=
  steps.filter (fun s => s.dependencies.isEmpty)

/-- The `parallelGroup` tag of one scheduling round. -/
def roundGroup (current : List TaskStep) (lvl : Nat) : Option String :=
  if current.length > 1 then some ("level-" ++ toString lvl) else none

/-- The component's `while (currentLevelSteps.length > 0)` loop, with fuel. -/
def levelLoop (steps : List TaskStep) :
    Nat → List TaskStep → List String → Nat → List GraphNode
  | 0, _, _, _ => []
  | fuel+1, current, processed, lvl =>
    if current.isEmpty then []
    else
      (pushLevel (roundGroup current lvl) lvl current processed).1 ++
        levelLoop steps fuel
          (nextLevelSteps steps (pushLevel (roundGroup current lvl) lvl current processed).2)
          (pushLevel (roundGroup current lvl) lvl current processed).2
          (lvl + 1)

/-- The `graphNodes` computation: BFS level assignment starting from the root
steps. -/
def graphNodes (steps : List TaskStep) : List GraphNode :=
  levelLoop steps (steps.length + 1) (rootSteps steps) [] 0

/-! ### Generic list lemmas used by the leveling proofs -/

lemma filter_length_le_of_imp {α : Type} (p q : α → Bool) :
    ∀ l : List α, (∀ x ∈ l, q x = true → p x = true) →
      (l.filter q).length ≤ (l.filter p).length
  | [], _ => by simp
  | a :: t, h => by
    have ih := filter_length_le_of_imp p q t (fun x hx => h x (List.mem_cons_of_mem a hx))
    by_cases hq : q a = true
    · have hp := h a (List.mem_cons_self a t) hq
      simp [List.filter_cons, hq, hp]
      omega
    · rw [Bool.not_eq_true] at hq
      by_cases hp : p a = true
      · simp [List.filter_cons, hq, hp]
        omega
      · rw [Bool.not_eq_true] at hp
        simp [List.filter_cons, hq, hp]
        exact ih

lemma filter_length_lt_of_witness {α : Type} (p q : α → Bool) :
    ∀ (l : List α) (a : α), a ∈ l → p a = true → q a = false →
      (∀ x ∈ l, q x = true → p x = true) →
      (l.filter q).length < (l.filter p).length
  | [], a, ha, _, _, _ => absurd ha (List.not_mem_nil a)
  | b :: t, a, ha, hpa, hqa, h => by
    have ht : ∀ x ∈ t, q x = true → p x = true :=
      fun x hx => h x (List.mem_cons_of_mem b hx)
    rcases List.mem_cons.mp ha with rfl | hat
    · have hle := filter_length_le_of_imp p q t ht
      simp [List.filter_cons, hqa, hpa]
      omega
    · have ih := filter_length_lt_of_witness p q t a hat hpa hqa ht
      by_cases hqb : q b = true
      · have hpb := h b (List.mem_cons_self b t) hqb
        simp [List.filter_cons, hqb, hpb]
        omega
      · rw [Bool.not_eq_true] at hqb
        by_cases hpb : p b = true
        · simp [List.filter_cons, hqb, hpb]
          omega
        · rw [Bool.not_eq_true] at hpb
          simp [List.filter_cons, hqb, hpb]
          exact ih

/-! ### `pushLevel` lemmas -/

lemma pushLevel_subset_processed (pg : Option String) (lvl : Nat) :
    ∀ (cur : List TaskStep) (processed : List String) (x : String),
      x ∈ processed → x ∈ (pushLevel pg lvl cur processed).2
  | [], _, _, hx => hx
  | s :: rest, processed, x, hx => by
    by_cases hc : processed.contains s.id = true
    · simp only [pushLevel, hc, if_true]
      exact pushLevel_subset_processed pg lvl rest processed x hx
    · rw [Bool.not_eq_true] at hc
      simp only [pushLevel, hc, Bool.false_eq_true, if_false]
      exact pushLevel_subset_processed pg lvl rest (s.id :: processed) x
        (List.mem_cons_of_mem _ hx)

lemma pushLevel_mem_snd_iff (pg : Option String) (lvl : Nat) :
    ∀ (cur : List TaskStep) (processed : List String) (x : String),
      x ∈ (pushLevel pg lvl cur processed).2 ↔
        x ∈ processed ∨ ∃ n ∈ (pushLevel pg lvl cur processed).1, n.step.id = x
  | [], processed, x => by simp [pushLevel]
  | s :: rest, processed, x => by
    by_cases hc : processed.contains s.id = true
    · simp only [pushLevel, hc, if_true]
      exact pushLevel_mem_snd_iff pg lvl rest processed x
    · rw [Bool.not_eq_true] at hc
      simp only [pushLevel, hc, Bool.false_eq_true, if_false]
      rw [pushLevel_mem_snd_iff pg lvl rest (s.id :: processed) x]
      constructor
      · rintro (hx | ⟨n, hn, hid⟩)
        · rcases List.mem_cons.mp hx with rfl | hx
          · exact Or.inr ⟨⟨s, lvl, pg⟩, List.mem_cons_self _ _, rfl⟩
          · exact Or.inl hx
        · exact Or.inr ⟨n, List.mem_cons_of_mem _ hn, hid⟩
      · rintro (hx | ⟨n, hn, hid⟩)
        · exact Or.inl (List.mem_cons_of_mem _ hx)
        · rcases List.mem_cons.mp hn with rfl | hn
          · exact Or.inl (by simpa using Or.inl hid.symm)
          · exact Or.inr ⟨n, hn, hid⟩

lemma pushLevel_node_prop (pg : Option String) (lvl : Nat) :
    ∀ (cur : List TaskStep) (processed : List String) (n : GraphNode),
      n ∈ (pushLevel pg lvl cur processed).1 →
        n.level = lvl ∧ n.parallelGroup = pg ∧ n.step ∈ cur ∧ n.step.id ∉ processed
  | [], _, n, hn => absurd hn (List.not_mem_nil n)
  | s :: rest, processed, n, hn => by
    by_cases hc : processed.contains s.id = true
    · simp only [pushLevel, hc, if_true] at hn
      obtain ⟨h1, h2, h3, h4⟩ := pushLevel_node_prop pg lvl rest processed n hn
      exact ⟨h1, h2, List.mem_cons_of_mem _ h3, h4⟩
    · rw [Bool.not_eq_true] at hc
      simp only [pushLevel, hc, Bool.false_eq_true, if_false] at hn
      rcases List.mem_cons.mp hn with rfl | hn
      · refine ⟨rfl, rfl, List.mem_cons_self _ _, ?_⟩
        simpa using hc
      · obtain ⟨h1, h2, h3, h4⟩ := pushLevel_node_prop pg lvl rest (s.id :: processed) n hn
        refine ⟨h1, h2, List.mem_cons_of_mem _ h3, fun hmem => h4 ?_⟩
        exact List.mem_cons_of_mem _ hmem

lemma pushLevel_id_mem_snd (pg : Option String) (lvl : Nat) :
    ∀ (cur : List TaskStep) (processed : List String) (s : TaskStep),
      s ∈ cur → s.id ∈ (pushLevel pg lvl cur processed).2
  | [], _, s, hs => absurd hs (List.not_mem_nil s)
  | c :: rest, processed, s, hs => by
    by_cases hc : processed.contains c.id = true
    · simp only [pushLevel, hc, if_true]
      rcases List.mem_cons.mp hs with rfl | hs
      · exact pushLevel_subset_processed pg lvl rest processed s.id (by simpa using hc)
      · exact pushLevel_id_mem_snd pg lvl rest processed s hs
    · rw [Bool.not_eq_true] at hc
      simp only [pushLevel, hc, Bool.false_eq_true, if_false]
      rcases List.mem_cons.mp hs with rfl | hs
      · exact pushLevel_subset_processed pg lvl rest (s.id :: processed) s.id
          (List.mem_cons_self _ _)
      · exact pushLevel_id_mem_snd pg lvl rest (c.id :: processed) s hs

lemma pushLevel_mem_fst (pg : Option String) (lvl : Nat) :
    ∀ (cur : List TaskStep) (processed : List String) (s : TaskStep),
      s ∈ cur → s.id ∉ processed → (cur.map TaskStep.id).Nodup →
        GraphNode.mk s lvl pg ∈ (pushLevel pg lvl cur processed).1
  | [], _, s, hs, _, _ => absurd hs (List.not_mem_nil s)
  | c :: rest, processed, s, hs, hsp, hnd => by
    have hnd' : (rest.map TaskStep.id).Nodup := (List.nodup_cons.mp (by simpa using hnd)).2
    rcases List.mem_cons.mp hs with rfl | hs
    · have hc : processed.contains s.id = false := by simpa using hsp
      simp only [pushLevel, hc, Bool.false_eq_true, if_false]
      exact List.mem_cons_self _ _
    · have hne : s.id ≠ c.id := by
        intro he
        have hcnot : c.id ∉ rest.map TaskStep.id := (List.nodup_cons.mp (by simpa using hnd)).1
        exact hcnot (he ▸ List.mem_map_of_mem TaskStep.id hs)
      by_cases hc : processed.contains c.id = true
      · simp only [pushLevel, hc, if_true]
        exact pushLevel_mem_fst pg lvl rest processed s hs hsp hnd'
      · rw [Bool.not_eq_true] at hc
        simp only [pushLevel, hc, Bool.false_eq_true, if_false]
        refine List.mem_cons_of_mem _ ?_
        exact pushLevel_mem_fst pg lvl rest (c.id :: processed) s hs
          (by simp [hne, hsp]) hnd'

/-! ### `levelLoop` lemmas -/

lemma levelLoop_level_ge (steps : List TaskStep) :
    ∀ (fuel : Nat) (current : List TaskStep) (processed : List String) (lvl : Nat),
      ∀ n ∈ levelLoop steps fuel current processed lvl, lvl ≤ n.level
  | 0, _, _, _ => by simp [levelLoop]
  | fuel+1, current, processed, lvl => by
    by_cases hcur : current.isEmpty = true
    · simp [levelLoop, hcur]
    · rw [Bool.not_eq_true] at hcur
      simp only [levelLoop, hcur, Bool.false_eq_true, if_false]
      intro n hn
      rcases List.mem_append.mp hn with hn | hn
      · have h := (pushLevel_node_prop _ _ _ _ n hn).1
        omega
      · have h := levelLoop_level_ge steps fuel _ _ (lvl+1) n hn
        omega

lemma levelLoop_step_mem (steps : List TaskStep) :
    ∀ (fuel : Nat) (current : List TaskStep) (processed : List String) (lvl : Nat),
      (∀ s ∈ current, s ∈ steps) →
      ∀ n ∈ levelLoop steps fuel current processed lvl, n.step ∈ steps
  | 0, _, _, _ => by simp [levelLoop]
  | fuel+1, current, processed, lvl => by
    intro hcs
    by_cases hcur : current.isEmpty = true
    · simp [levelLoop, hcur]
    · rw [Bool.not_eq_true] at hcur
      simp only [levelLoop, hcur, Bool.false_eq_true, if_false]
      intro n hn
      rcases List.mem_append.mp hn with hn | hn
      · exact hcs n.step (pushLevel_node_prop _ _ _ _ n hn).2.2.1
      · exact levelLoop_step_mem steps fuel _ _ (lvl+1)
          (fun s hs => List.mem_of_mem_filter hs) n hn

lemma levelLoop_not_processed (steps : List TaskStep) :
    ∀ (fuel : Nat) (current : List TaskStep) (processed : List String) (lvl : Nat),
      ∀ n ∈ levelLoop steps fuel current processed lvl, n.step.id ∉ processed
  | 0, _, _, _ => by simp [levelLoop]
  | fuel+1, current, processed, lvl => by
    by_cases hcur : current.isEmpty = true
    · simp [levelLoop, hcur]
    · rw [Bool.not_eq_true] at hcur
      simp only [levelLoop, hcur, Bool.false_eq_true, if_false]
      intro n hn
      rcases List.mem_append.mp hn with hn | hn
      · exact (pushLevel_node_prop _ _ _ _ n hn).2.2.2
      · intro hmem
        exact levelLoop_not_processed steps fuel _ _ (lvl+1) n hn
          (pushLevel_subset_processed _ _ _ _ _ hmem)

lemma mem_nextLevelSteps (steps : List TaskStep) (processed : List String) (s : TaskStep)
    (hs : s ∈ nextLevelSteps steps processed) :
    s ∈ steps ∧ s.id ∉ processed ∧ ∀ d ∈ s.dependencies, d ∈ processed := by
  have h1 := List.mem_of_mem_filter hs
  have h2 := List.of_mem_filter hs
  simp only [stepReady, Bool.and_eq_true, Bool.not_eq_true', List.all_eq_true] at h2
  refine ⟨h1, by simpa using h2.1, fun d hd => by simpa using h2.2 d hd⟩

lemma levelLoop_deps (steps : List TaskStep) :
    ∀ (fuel : Nat) (current : List TaskStep) (processed : List String) (lvl : Nat),
      (∀ s ∈ current, s.id ∉ processed → ∀ d ∈ s.dependencies, d ∈ processed) →
      ∀ n ∈ levelLoop steps fuel current processed lvl, ∀ d ∈ n.step.dependencies,
        d ∈ processed ∨
          ∃ m ∈ levelLoop steps fuel current processed lvl, m.step.id = d ∧ m.level < n.level
  | 0, _, _, _ => by simp [levelLoop]
  | fuel+1, current, processed, lvl => by
    intro h1
    by_cases hcur : current.isEmpty = true
    · simp [levelLoop, hcur]
    · rw [Bool.not_eq_true] at hcur
      simp only [levelLoop, hcur, Bool.false_eq_true, if_false]
      intro n hn d hd
      rcases List.mem_append.mp hn with hn | hn
      · obtain ⟨hlvl, _, hmem, hnp⟩ := pushLevel_node_prop _ _ _ _ n hn
        exact Or.inl (h1 n.step hmem hnp d hd)
      · have h1' : ∀ s ∈ nextLevelSteps steps
            (pushLevel (roundGroup current lvl) lvl current processed).2,
            s.id ∉ (pushLevel (roundGroup current lvl) lvl current processed).2 →
            ∀ d ∈ s.dependencies,
              d ∈ (pushLevel (roundGroup current lvl) lvl current processed).2 :=
          fun s hs _ => (mem_nextLevelSteps _ _ s hs).2.2
        rcases levelLoop_deps steps fuel _ _ (lvl+1) h1' n hn d hd with hdp | ⟨m, hm, hid, hlt⟩
        · rcases (pushLevel_mem_snd_iff _ _ _ _ d).mp hdp with hdp | ⟨m, hm, hid⟩
          · exact Or.inl hdp
          · refine Or.inr ⟨m, List.mem_append_left _ hm, hid, ?_⟩
            have hml := (pushLevel_node_prop _ _ _ _ m hm).1
            have hnl := levelLoop_level_ge steps fuel _ _ (lvl+1) n hn
            omega
        · exact Or.inr ⟨m, List.mem_append_right _ hm, hid, hlt⟩

/-! ### Completeness of the leveling on acyclic graphs -/

/-- The number of distinct step ids not yet processed. -/
def unprocCount (steps : List TaskStep) (processed : List String) : Nat :=
  ((steps.map TaskStep.id).dedup.filter (fun x => !(processed.contains x))).length

lemma unprocCount_lt (steps : List TaskStep) (processed p2 : List String) (a : String)
    (hsub : ∀ x ∈ processed, x ∈ p2) (ha : a ∈ steps.map TaskStep.id)
    (hap : a ∉ processed) (ha2 : a ∈ p2) :
    unprocCount steps p2 < unprocCount steps processed := by
  apply filter_length_lt_of_witness _ _ _ a (List.mem_dedup.mpr ha)
  · simpa using hap
  · simpa using ha2
  · intro x _ hx
    simp only [Bool.not_eq_true'] at hx ⊢
    have hxm : x ∉ p2 := by simpa using hx
    have : x ∉ processed := fun hmem => hxm (hsub x hmem)
    simpa using this

lemma exists_rank_min {α : Type} (f : α → Nat) :
    ∀ l : List α, l ≠ [] → ∃ a ∈ l, ∀ b ∈ l, f a ≤ f b
  | [], h => absurd rfl h
  | a :: t, _ => by
    rcases eq_or_ne t [] with rfl | ht
    · exact ⟨a, List.mem_cons_self _ _, by simp⟩
    · obtain ⟨b, hb, hmin⟩ := exists_rank_min f t ht
      by_cases hab : f a ≤ f b
      · refine ⟨a, List.mem_cons_self _ _, ?_⟩
        intro c hc
        rcases List.mem_cons.mp hc with rfl | hc
        · exact le_refl _
        · exact le_trans hab (hmin c hc)
      · refine ⟨b, List.mem_cons_of_mem _ hb, ?_⟩
        intro c hc
        rcases List.mem_cons.mp hc with rfl | hc
        · omega
        · exact hmin c hc

lemma levelLoop_complete (steps : List TaskStep) (rank : String → Nat)
    (hnodup : (steps.map TaskStep.id).Nodup)
    (hacyc : ∀ s ∈ steps, ∀ d ∈ s.dependencies,
      ∃ t ∈ steps, t.id = d ∧ rank d < rank s.id) :
    ∀ (fuel : Nat) (processed : List String) (lvl : Nat),
      unprocCount steps processed < fuel →
      ∀ s ∈ steps, s.id ∉ processed →
        ∃ n ∈ levelLoop steps fuel (nextLevelSteps steps processed) processed lvl,
          n.step = s
  | 0, processed, lvl => by omega
  | fuel+1, processed, lvl => by
    intro hfuel s hss hsp
    by_cases hcur : (nextLevelSteps steps processed).isEmpty = true
    · exfalso
      rw [List.isEmpty_iff] at hcur
      have hU : s ∈ steps.filter (fun t => !(processed.contains t.id)) :=
        List.mem_filter.mpr ⟨hss, by simpa using hsp⟩
      obtain ⟨u, hu, humin⟩ :=
        exists_rank_min (fun t => rank t.id) _ (List.ne_nil_of_mem hU)
      obtain ⟨hus, hup⟩ := List.mem_filter.mp hu
      have hupm : u.id ∉ processed := by simpa using hup
      have hready : stepReady processed u = true := by
        simp only [stepReady, Bool.and_eq_true, Bool.not_eq_true', List.all_eq_true]
        refine ⟨by simpa using hupm, ?_⟩
        intro d hd
        obtain ⟨t, hts, htid, hrk⟩ := hacyc u hus d hd
        by_cases htp : t.id ∈ processed
        · simpa [htid] using htp
        · exfalso
          have htU : t ∈ steps.filter (fun t => !(processed.contains t.id)) :=
            List.mem_filter.mpr ⟨hts, by simpa using htp⟩
          have := humin t htU
          rw [htid] at this
          omega
      have : u ∈ nextLevelSteps steps processed := List.mem_filter.mpr ⟨hus, hready⟩
      rw [hcur] at this
      exact absurd this (List.not_mem_nil u)
    · rw [Bool.not_eq_true] at hcur
      simp only [levelLoop, hcur, Bool.false_eq_true, if_false]
      by_cases hscur : s ∈ nextLevelSteps steps processed
      · have hnodupcur : ((nextLevelSteps steps processed).map TaskStep.id).Nodup :=
          hnodup.sublist ((List.filter_sublist steps).map TaskStep.id)
        refine ⟨⟨s, _, _⟩, List.mem_append_left _
          (pushLevel_mem_fst _ _ _ processed s hscur hsp hnodupcur), rfl⟩
      · have hne : (nextLevelSteps steps processed) ≠ [] := by
          intro h
          rw [h] at hcur
          simp at hcur
        obtain ⟨h0, hh0⟩ := List.exists_mem_of_ne_nil _ hne
        obtain ⟨hh0s, hh0p, _⟩ := mem_nextLevelSteps steps processed h0 hh0
        have hsr2 : s.id ∉ (pushLevel (roundGroup (nextLevelSteps steps processed) lvl)
            lvl (nextLevelSteps steps processed) processed).2 := by
          intro hmem
          rcases (pushLevel_mem_snd_iff _ _ _ _ s.id).mp hmem with hmem | ⟨m, hm, hid⟩
          · exact hsp hmem
          · obtain ⟨_, _, hms, _⟩ := pushLevel_node_prop _ _ _ _ m hm
            have : m.step = s :=
              List.inj_on_of_nodup_map hnodup
                (List.mem_of_mem_filter hms) hss hid
            exact hscur (this ▸ hms)
        have hfuel' : unprocCount steps (pushLevel (roundGroup (nextLevelSteps steps processed) lvl)
            lvl (nextLevelSteps steps processed) processed).2 < fuel := by
          have hlt := unprocCount_lt steps processed
            ((pushLevel (roundGroup (nextLevelSteps steps processed) lvl) lvl
              (nextLevelSteps steps processed) processed).2) h0.id
            (fun x hx => pushLevel_subset_processed
              (roundGroup (nextLevelSteps steps processed) lvl) lvl
              (nextLevelSteps steps processed) processed x hx)
            (List.mem_map_of_mem TaskStep.id hh0s) hh0p
            (pushLevel_id_mem_snd (roundGroup (nextLevelSteps steps processed) lvl) lvl
              (nextLevelSteps steps processed) processed h0 hh0)
          omega
        obtain ⟨n, hn, hns⟩ := levelLoop_complete steps rank hnodup hacyc fuel _ (lvl+1)
          hfuel' s hss hsr2
        exact ⟨n, List.mem_append_right _ hn, hns⟩

lemma rootSteps_eq_nextLevel (steps : List TaskStep) :
    rootSteps steps = nextLevelSteps steps [] := by
  unfold rootSteps nextLevelSteps
  apply List.filter_congr
  intro s _
  cases h : s.dependencies <;> simp [stepReady, h]

lemma graphNodes_level_zero_iff (steps : List TaskStep) :
    ∀ n ∈ graphNodes steps, (n.level = 0 ↔ n.step.dependencies = []) := by
  intro n hn
  unfold graphNodes at hn
  by_cases hcur : (rootSteps steps).isEmpty = true
  · rw [show steps.length + 1 = steps.length + 1 from rfl] at hn
    simp only [levelLoop, hcur, if_true] at hn
    exact absurd hn (List.not_mem_nil n)
  · rw [Bool.not_eq_true] at hcur
    simp only [levelLoop, hcur, Bool.false_eq_true, if_false] at hn
    constructor
    · intro hlvl
      rcases List.mem_append.mp hn with hmem | hmem
      · obtain ⟨_, _, hmemr, _⟩ := pushLevel_node_prop _ _ _ _ n hmem
        have := List.of_mem_filter hmemr
        simpa [List.isEmpty_iff] using this
      · have := levelLoop_level_ge steps _ _ _ 1 n hmem
        omega
    · intro hdeps
      rcases List.mem_append.mp hn with hmem | hmem
      · exact (pushLevel_node_prop _ _ _ _ n hmem).1
      · exfalso
        have hstep : n.step ∈ steps :=
          levelLoop_step_mem steps _ _ _ 1
            (fun s hs => List.mem_of_mem_filter hs) n hmem
        have hroot : n.step ∈ rootSteps steps :=
          List.mem_filter.mpr ⟨hstep, by simp [hdeps]⟩
        have hid : n.step.id ∈ (pushLevel (roundGroup (rootSteps steps) 0) 0
            (rootSteps steps) []).2 :=
          pushLevel_id_mem_snd _ _ _ [] n.step hroot
        exact levelLoop_not_processed steps _ _ _ 1 n hmem hid

/-- C1: for every acyclic `TaskGraph` (distinct step ids, dependencies ranked
below their dependents and resolvable in the graph), the BFS leveling of the
`TaskGraph` component assigns a level to every node, assigns level 0 exactly
to the nodes with no dependencies, and assigns every other node a level
strictly greater than the level of each of its dependencies — so a node is
placed only after all its listed dependencies sit in earlier levels. -/
theorem graphNodes_leveling (steps : List TaskStep)
    (hnodup : (steps.map TaskStep.id).Nodup) (rank : String → Nat)
    (hacyc : ∀ s ∈ steps, ∀ d ∈ s.dependencies,
      ∃ t ∈ steps, t.id = d ∧ rank d < rank s.id) :
    (∀ s ∈ steps, ∃ n ∈ graphNodes steps, n.step = s) ∧
    (∀ n ∈ graphNodes steps, (n.level = 0 ↔ n.step.dependencies = [])) ∧
    (∀ n ∈ graphNodes steps, ∀ d ∈ n.step.dependencies,
      ∃ m ∈ graphNodes steps, m.step.id = d ∧ m.level < n.level) := by
  refine ⟨?_, graphNodes_level_zero_iff steps, ?_⟩
  · intro s hs
    have hfuel : unprocCount steps [] < steps.length + 1 := by
      have h1 : ((steps.map TaskStep.id).dedup.filter
          (fun x => !(([] : List String).contains x))).length ≤
          (steps.map TaskStep.id).dedup.length := List.length_filter_le _ _
      have h2 : (steps.map TaskStep.id).dedup.length ≤ (steps.map TaskStep.id).length :=
        (steps.map TaskStep.id).dedup_sublist.length_le
      have h3 : (steps.map TaskStep.id).length = steps.length := List.length_map _ _
      unfold unprocCount
      omega
    have := levelLoop_complete steps rank hnodup hacyc (steps.length + 1) [] 0 hfuel s hs
      (List.not_mem_nil s.id)
    rw [← rootSteps_eq_nextLevel] at this
    exact this
  · intro n hn d hd
    have h1 : ∀ s ∈ rootSteps steps, s.id ∉ ([] : List String) →
        ∀ d ∈ s.dependencies, d ∈ ([] : List String) := by
      intro s hs _ d hd
      have := List.of_mem_filter hs
      rw [List.isEmpty_iff] at this
      rw [this] at hd
      exact absurd hd (List.not_mem_nil d)
    have := levelLoop_deps steps (steps.length + 1) (rootSteps steps) [] 0 h1 n hn d hd
    rcases this with hmem | h
    · exact absurd hmem (List.not_mem_nil d)
    · exact h

/-- A concrete diamond-shaped acyclic graph used to witness C1. -/
def levelDemoSteps : List TaskStep :=
  [⟨"s1", "search jobs", "search", "pending", []⟩,
   ⟨"s2", "scrape results", "scrape", "pending", ["s1"]⟩,
   ⟨"s3", "parse results", "parse", "pending", ["s1"]⟩,
   ⟨"s4", "apply", "apply", "pending", ["s2", "s3"]⟩]

/-- A rank function witnessing the acyclicity of `levelDemoSteps`. -/
def levelDemoRank (id : String) : Nat :=
  if id = "s1" then 0 else if id = "s4" then 2 else 1

/-- Witness for C1: the hypotheses of `graphNodes_leveling` hold for the
concrete diamond graph, and the theorem applies to it. -/
theorem graphNodes_leveling_witness :
    ((levelDemoSteps.map TaskStep.id).Nodup ∧
      (∀ s ∈ levelDemoSteps, ∀ d ∈ s.dependencies,
        ∃ t ∈ levelDemoSteps, t.id = d ∧ levelDemoRank d < levelDemoRank s.id)) ∧
    ((∀ s ∈ levelDemoSteps, ∃ n ∈ graphNodes levelDemoSteps, n.step = s) ∧
    (∀ n ∈ graphNodes levelDemoSteps, (n.level = 0 ↔ n.step.dependencies = [])) ∧
    (∀ n ∈ graphNodes levelDemoSteps, ∀ d ∈ n.step.dependencies,
      ∃ m ∈ graphNodes levelDemoSteps, m.step.id = d ∧ m.level < n.level)) :=
  ⟨⟨by decide, by decide⟩,
    graphNodes_leveling levelDemoSteps (by decide) levelDemoRank (by decide)⟩

/-! ### C2: cyclic graphs -/

lemma levelLoop_avoid_cycle (steps : List TaskStep) (C : List String)
    (hcyc : ∀ s ∈ steps, s.id ∈ C → ∃ d ∈ s.dependencies, d ∈ C) :
    ∀ (fuel : Nat) (current : List TaskStep) (processed : List String) (lvl : Nat),
      (∀ s ∈ current, s.id ∉ processed → ∀ d ∈ s.dependencies, d ∈ processed) →
      (∀ s ∈ current, s ∈ steps) →
      (∀ x ∈ processed, x ∉ C) →
      ∀ n ∈ levelLoop steps fuel current processed lvl, n.step.id ∉ C
  | 0, _, _, _ => by simp [levelLoop]
  | fuel+1, current, processed, lvl => by
    intro h1 hcs hpC
    by_cases hcur : current.isEmpty = true
    · simp [levelLoop, hcur]
    · rw [Bool.not_eq_true] at hcur
      simp only [levelLoop, hcur, Bool.false_eq_true, if_false]
      have hfst : ∀ n ∈ (pushLevel (roundGroup current lvl) lvl current processed).1,
          n.step.id ∉ C := by
        intro n hn hnC
        obtain ⟨_, _, hmem, hnp⟩ := pushLevel_node_prop _ _ _ _ n hn
        obtain ⟨d, hd, hdC⟩ := hcyc n.step (hcs n.step hmem) hnC
        exact hpC d (h1 n.step hmem hnp d hd) hdC
      intro n hn
      rcases List.mem_append.mp hn with hn | hn
      · exact hfst n hn
      · refine levelLoop_avoid_cycle steps C hcyc fuel _ _ (lvl+1)
          (fun s hs _ => (mem_nextLevelSteps _ _ s hs).2.2)
          (fun s hs => List.mem_of_mem_filter hs) ?_ n hn
        intro x hx
        rcases (pushLevel_mem_snd_iff _ _ _ _ x).mp hx with hx | ⟨m, hm, hid⟩
        · exact hpC x hx
        · exact hid ▸ hfst m hm

/-- C2 (amended): the leveling never assigns a level to a node that belongs to
a dependency cycle — such nodes are silently omitted from the output (and the
loop terminates); no error of any kind is signalled. -/
theorem graphNodes_cycle_dropped (steps : List TaskStep) (C : List String)
    (hcyc : ∀ s ∈ steps, s.id ∈ C → ∃ d ∈ s.dependencies, d ∈ C) :
    ∀ n ∈ graphNodes steps, n.step.id ∉ C := by
  refine levelLoop_avoid_cycle steps C hcyc (steps.length + 1) (rootSteps steps) [] 0
    ?_ (fun s hs => List.mem_of_mem_filter hs) (fun x hx => absurd hx (List.not_mem_nil x))
  intro s hs _ d hd
  have := List.of_mem_filter hs
  rw [List.isEmpty_iff] at this
  rw [this] at hd
  exact absurd hd (List.not_mem_nil d)

/-- The two-node cyclic graph A→B→A. -/
def cycleDemoSteps : List TaskStep :=
  [⟨"A", "step A", "click", "pending", ["B"]⟩,
   ⟨"B", "step B", "click", "pending", ["A"]⟩]

/-- C2 counterexample: on the cyclic graph A→B→A the leveling logic returns
a plain empty node list — it terminates normally, raises no
`CyclicGraphError` (no such error exists anywhere in this code path), and
silently drops both cyclic nodes instead of reporting them. -/
theorem graphNodes_cycle_counterexample :
    graphNodes cycleDemoSteps = [] := by decide

/-- Witness for C2 (amended): the cycle hypothesis holds for the concrete
two-node cycle, and the amended theorem applies to it. -/
theorem graphNodes_cycle_dropped_witness :
    (∀ s ∈ cycleDemoSteps, s.id ∈ ["A", "B"] → ∃ d ∈ s.dependencies, d ∈ ["A", "B"]) ∧
    (∀ n ∈ graphNodes cycleDemoSteps, n.step.id ∉ ["A", "B"]) :=
  ⟨by decide, graphNodes_cycle_dropped cycleDemoSteps ["A", "B"] (by decide)⟩

/-! ## Step interpreter: retry/backoff controller

From `executeStep` in `extension/src/contents/jobhunter.ts`:

```
const retries = step.payload?.retries || 1;
for (let attempt = 1; attempt <= retries; attempt++) {
  try {
    const res = await attemptAction(step.action, step.payload || {});
    sendStepResult(taskId, stepId, stepName, true, res, { attempt });
    return { success: true, data: res };
  } catch (error) {
    sendStepResult(taskId, stepId, stepName, false, {}, { attempt, error });
    if (attempt === retries) return { success: false, error: error.message };
    await new Promise((r) => setTimeout(r, 300 * attempt));
  }
}
return { success: false, error: 'Unknown failure' };
```

The attempt body is abstracted as `attemptFn : Nat → Except String α` (the
attempt number is passed only so that a model run can choose per-attempt
behavior; the source closure can likewise behave differently per attempt
because it reads the live page).  The embedding returns, besides the step
result, the trace of reports sent to `sendStepResult` (in order) and the
list of backoff delays awaited between consecutive attempts.
-/

/-- The result of `executeStep`: `{success, data?, error?}`. -/
structure StepResult (α : Type) where
  success : Bool
  data : Option α
  error : Option String
deriving Repr, DecidableEq

/-- One `sendStepResult` report: the attempt number from `meta.attempt`,
the success flag, the payload and the error message. -/
structure AttemptReport (α : Type) where
  attempt : Nat
  success : Bool
  data : Option α
  error : Option String
deriving Repr, DecidableEq

/-- `step.payload?.retries || 1`: a missing field or `0` (both JS-falsy)
default to 1. -/
def getRetries : Option Nat → Nat
  | none => 1
  | some 0 => 1
  | some (n+1) => n + 1

/-- The retry `for` loop of `executeStep`, from attempt number `attempt`.
Returns the step result, the ordered reports and the backoff delays. -/
def executeStepLoop {α : Type} (attemptFn : Nat → Except String α)
    (retries attempt : Nat) :
    StepResult α × List (AttemptReport α) × List Nat :=
  if _h : attempt ≤ retries then
    match attemptFn attempt with
    | .ok d => (⟨true, some d, none⟩, [⟨attempt, true, some d, none⟩], [])
    | .error e =>
      if _he : attempt = retries then
        (⟨false, none, some e⟩, [⟨attempt, false, none, some e⟩], [])
      else
        ((executeStepLoop attemptFn retries (attempt+1)).1,
          ⟨attempt, false, none, some e⟩ :: (executeStepLoop attemptFn retries (attempt+1)).2.1,
          300 * attempt :: (executeStepLoop attemptFn retries (attempt+1)).2.2)
  else (⟨false, none, some "Unknown failure"⟩, [], [])
termination_by retries + 1 - attempt
decreasing_by omega

/-- `executeStep`'s retry wrapper: read `retries` from the payload (JS `|| 1`
default) and run the loop from attempt 1. -/
def executeStepRetry {α : Type} (attemptFn : Nat → Except String α)
    (payloadRetries : Option Nat) :
    StepResult α × List (AttemptReport α) × List Nat :=
  executeStepLoop attemptFn (getRetries payloadRetries) 1

lemma executeStepLoop_fail {α : Type} (err : Nat → String) (n : Nat) :
    ∀ (k a : Nat), a + k = n →
      executeStepLoop (α := α) (fun t => .error (err t)) n a =
        (⟨false, none, some (err n)⟩,
          (List.range' a (k + 1)).map (fun t => ⟨t, false, none, some (err t)⟩),
          (List.range' a k).map (fun t => 300 * t)) := by
  intro k
  induction k with
  | zero =>
    intro a hak
    have han : a = n := by omega
    subst han
    rw [executeStepLoop]
    simp
  | succ k ih =>
    intro a hak
    have h1 : a ≤ n := by omega
    have h2 : ¬ a = n := by omega
    rw [executeStepLoop]
    simp only [h1, dif_pos, h2, dif_neg, not_false_iff]
    rw [ih (a+1) (by omega)]
    simp [List.range'_succ]

lemma executeStepLoop_ok {α : Type} (g : Nat → Except String α) (n : Nat) :
    ∀ (m a k : Nat) (d : α), a + m = k → k ≤ n →
      (∀ j, a ≤ j → j < k → ∃ e, g j = .error e) → g k = .ok d →
      (executeStepLoop g n a).1 = ⟨true, some d, none⟩ ∧
      (executeStepLoop g n a).2.1.length = k - a + 1 := by
  intro m
  induction m with
  | zero =>
    intro a k d hak hkn _ hok
    have hk : a = k := by omega
    subst hk
    rw [executeStepLoop]
    simp only [show a ≤ n by omega, dif_pos]
    rw [hok]
    simp
  | succ m ih =>
    intro a k d hak hkn hfail hok
    obtain ⟨e, he⟩ := hfail a (le_refl a) (by omega)
    have h1 : a ≤ n := by omega
    have h2 : ¬ a = n := by omega
    rw [executeStepLoop]
    simp only [h1, dif_pos]
    rw [he]
    simp only [h2, dif_neg, not_false_iff]
    obtain ⟨hres, hlen⟩ := ih (a+1) k d (by omega) hkn
      (fun j hj1 hj2 => hfail j (by omega) hj2) hok
    refine ⟨hres, ?_⟩
    simp only [List.length_cons, hlen]
    omega

lemma range'_mul_chain (c k a : Nat) :
    List.Chain' (· ≤ ·) ((List.range' a k).map (fun t => c * t)) := by
  apply List.Pairwise.chain'
  rw [List.pairwise_map]
  exact (List.pairwise_lt_range' a k).imp (fun h => Nat.mul_le_mul_left c (le_of_lt h))

/-- C3: with an always-failing action and `payload.retries = n ≥ 1` (a missing
or `0` payload field defaults to 1), the retry loop performs exactly `n`
sequential attempts, reports each attempt's failure individually and in
order, waits `300 * attempt` between consecutive attempts (a non-decreasing
linear backoff), and returns `success: false` with the last attempt's error
message; and whenever an attempt succeeds, the loop short-circuits with
`success: true` and no further attempt is made. -/
theorem executeStep_retry_spec {α : Type} (n : Nat) (hn : 1 ≤ n) (err : Nat → String) :
    (executeStepRetry (α := α) (fun t => .error (err t)) (some n)).1 =
        ⟨false, none, some (err n)⟩ ∧
    (executeStepRetry (α := α) (fun t => .error (err t)) (some n)).2.1 =
        (List.range' 1 n).map (fun t => ⟨t, false, none, some (err t)⟩) ∧
    (executeStepRetry (α := α) (fun t => .error (err t)) (some n)).2.2 =
        (List.range' 1 (n - 1)).map (fun t => 300 * t) ∧
    List.Chain' (· ≤ ·)
      ((executeStepRetry (α := α) (fun t => .error (err t)) (some n)).2.2) ∧
    getRetries none = 1 ∧
    (∀ (g : Nat → Except String α) (k : Nat) (d : α), 1 ≤ k → k ≤ n →
      (∀ j, 1 ≤ j → j < k → ∃ e, g j = .error e) → g k = .ok d →
      (executeStepRetry g (some n)).1 = ⟨true, some d, none⟩ ∧
      (executeStepRetry g (some n)).2.1.length = k) := by
  have hget : getRetries (some n) = n := by
    cases n with
    | zero => omega
    | succ n => rfl
  have hfail := executeStepLoop_fail (α := α) err n (n - 1) 1 (by omega)
  have hn1 : n - 1 + 1 = n := by omega
  rw [hn1] at hfail
  unfold executeStepRetry
  rw [hget]
  refine ⟨?_, ?_, ?_, ?_, rfl, ?_⟩
  · rw [hfail]
  · rw [hfail]
  · rw [hfail]
  · rw [hfail]
    exact range'_mul_chain 300 (n - 1) 1
  · intro g k d hk1 hkn hf hok
    have := executeStepLoop_ok g n (k - 1) 1 k d (by omega) hkn
      (fun j hj1 hj2 => hf j hj1 hj2) hok
    refine ⟨this.1, ?_⟩
    rw [this.2]
    omega

/-- Witness for C3: the theorem applied at `n = 3` with a concrete failing
action, plus a concrete succeed-at-second-attempt run exercising the
short-circuit conjunct. -/
theorem executeStep_retry_spec_witness :
    (1 ≤ 3 ∧
      ((executeStepRetry (α := Nat) (fun t => .error ("boom " ++ toString t)) (some 3)).1 =
          ⟨false, none, some ("boom " ++ toString 3)⟩ ∧
        (executeStepRetry (α := Nat) (fun t => .error ("boom " ++ toString t)) (some 3)).2.1 =
          (List.range' 1 3).map
            (fun t => ⟨t, false, none, some ("boom " ++ toString t)⟩) ∧
        (executeStepRetry (α := Nat) (fun t => .error ("boom " ++ toString t)) (some 3)).2.2 =
          (List.range' 1 (3 - 1)).map (fun t => 300 * t) ∧
        List.Chain' (· ≤ ·)
          ((executeStepRetry (α := Nat)
            (fun t => .error ("boom " ++ toString t)) (some 3)).2.2) ∧
        getRetries none = 1 ∧
        (∀ (g : Nat → Except String Nat) (k : Nat) (d : Nat), 1 ≤ k → k ≤ 3 →
          (∀ j, 1 ≤ j → j < k → ∃ e, g j = .error e) → g k = .ok d →
          (executeStepRetry g (some 3)).1 = ⟨true, some d, none⟩ ∧
          (executeStepRetry g (some 3)).2.1.length = k))) :=
  ⟨by decide, executeStep_retry_spec 3 (by decide) (fun t => "boom " ++ toString t)⟩

/-! ## Step interpreter: the `loop` action

From `executeStep`'s `case 'loop'`: the matched container elements are
iterated by index; for each item, the optional open-click and the substep
dispatches run inside a `try` block; a throw is caught and recorded as
`{index, success: false, error}`, after which the iteration continues
with the next item; the action finally returns `{results}` normally.
Each item is abstracted as the ordered list of outcomes of its operations
(the open-click plus each substep dispatch). -/

/-- One entry of the `results` array built by the `loop` action. -/
structure LoopItemResult where
  index : Nat
  success : Bool
  error : Option String
deriving Repr, DecidableEq

/-- Run one item's operations in order until the first throw (the `try`
block body). -/
def runItemOps : List (Except String Unit) → Except String Unit
  | [] => .ok ()
  | .ok () :: rest => runItemOps rest
  | .error e :: _ => .error e

/-- The `for (let i = 0; i < nodes.length; i++)` iteration with its
`try`/`catch`: per-item failures are recorded and never abort the loop. -/
def loopIter : List (List (Except String Unit)) → Nat → List LoopItemResult
  | [], _ => []
  | ops :: rest, i =>
    (match runItemOps ops with
      | .ok () => ⟨i, true, none⟩
      | .error e => ⟨i, false, some e⟩) :: loopIter rest (i+1)

/-- The `loop` action: a missing `payload.items_selector` throws
`'No items_selector for loop'`; otherwise the iteration runs to completion
and the action returns the `results` array. -/
def loopAction (itemsSelector : Option String)
    (items : List (List (Except String Unit))) :
    Except String (List LoopItemResult) :=
  match itemsSelector with
  | none => .error "No items_selector for loop"
  | some _ => .ok (loopIter items 0)

lemma loopIter_length : ∀ (items : List (List (Except String Unit))) (j : Nat),
    (loopIter items j).length = items.length
  | [], _ => rfl
  | _ :: rest, j => by
    simp [loopIter, loopIter_length rest (j+1)]

lemma loopIter_get? : ∀ (items : List (List (Except String Unit))) (j i : Nat)
    (ops : List (Except String Unit)), items.get? i = some ops →
    (loopIter items j).get? i = some (match runItemOps ops with
      | .ok () => ⟨j + i, true, none⟩
      | .error e => ⟨j + i, false, some e⟩)
  | [], _, i, _, h => by simp at h
  | ops0 :: rest, j, 0, ops, h => by
    simp only [List.get?] at h
    cases h
    simp [loopIter]
  | ops0 :: rest, j, i+1, ops, h => by
    simp only [List.get?] at h
    have := loopIter_get? rest (j+1) i ops h
    simp only [loopIter, List.get?]
    rw [this]
    have hj : j + 1 + i = j + (i + 1) := by omega
    rw [hj]

/-- C6: for a `loop` action over `k` matched items with a present
`items_selector`, the action returns (never throws) a `results` array of
length exactly `k`; entry `i` is `{index: i, success: true}` when item `i`'s
operations all succeed and `{index: i, success: false, error}` with the
thrown message otherwise; a per-item failure aborts nothing, and the loop
step as a whole comes back from the retry wrapper with `success: true`. -/
theorem loop_partial_failure (sel : String)
    (items : List (List (Except String Unit))) :
    loopAction (some sel) items = .ok (loopIter items 0) ∧
    (loopIter items 0).length = items.length ∧
    (∀ (i : Nat) (ops : List (Except String Unit)), items.get? i = some ops →
      (loopIter items 0).get? i = some (match runItemOps ops with
        | .ok () => ⟨i, true, none⟩
        | .error e => ⟨i, false, some e⟩)) ∧
    (executeStepRetry (fun _ => loopAction (some sel) items) none).1 =
      ⟨true, some (loopIter items 0), none⟩ := by
  refine ⟨rfl, loopIter_length items 0, ?_, ?_⟩
  · intro i ops h
    have := loopIter_get? items 0 i ops h
    simpa using this
  · rw [executeStepRetry, getRetries, executeStepLoop]
    simp [loopAction]

/-- Witness for C6: the spec's own test scenario — three items where the
second one's substep throws — yields three entries with exactly the middle
one failed, and the step as a whole succeeds. -/
theorem loop_partial_failure_witness :
    (loopAction (some ".item")
        [[.ok ()], [.error "Element not found"], [.ok ()]] =
      .ok (loopIter [[.ok ()], [.error "Element not found"], [.ok ()]] 0) ∧
    (loopIter [[.ok ()], [.error "Element not found"], [.ok ()]] 0).length =
      ([[.ok ()], [.error "Element not found"], [.ok ()]] :
        List (List (Except String Unit))).length ∧
    (∀ (i : Nat) (ops : List (Except String Unit)),
      ([[.ok ()], [.error "Element not found"], [.ok ()]] :
        List (List (Except String Unit))).get? i = some ops →
      (loopIter [[.ok ()], [.error "Element not found"], [.ok ()]] 0).get? i =
        some (match runItemOps ops with
          | .ok () => ⟨i, true, none⟩
          | .error e => ⟨i, false, some e⟩)) ∧
    (executeStepRetry
        (fun _ => loopAction (some ".item")
          [[.ok ()], [.error "Element not found"], [.ok ()]]) none).1 =
      ⟨true, some (loopIter [[.ok ()], [.error "Element not found"], [.ok ()]] 0),
        none⟩) ∧
    loopIter [[.ok ()], [.error "Element not found"], [.ok ()]] 0 =
      [⟨0, true, none⟩, ⟨1, false, some "Element not found"⟩, ⟨2, true, none⟩] :=
  ⟨loop_partial_failure ".item" [[.ok ()], [.error "Element not found"], [.ok ()]],
    by decide⟩

/-! ## Step interpreter: the `search` action

From `executeStep`'s `case 'search'`: an empty query throws; a host whose
name includes `linkedin.com` or `indeed.com` gets a directly constructed
search URL; otherwise the page's generic search input is used when present;
otherwise a site-scoped Google search URL is constructed.  `encodeURIComponent`
is abstracted as an arbitrary encoding function, and the presence of a
generic search input (`input[type="search"], input[name="q"],
input[aria-label*="search"]`) as a boolean of the page. -/

/-- JS `host.includes(pat)`. -/
def hostIncludes (host pat : String) : Bool :=
  decide (pat.data <:+: host.data)

/-- The observable outcome of a `search` action (the shape of the returned
object: `{navigated: url}` or `{typed: q}`). -/
inductive SearchOutcome where
  | navigated (url : String)
  | typed (q : String)
deriving Repr, DecidableEq

/-- The `search` action. -/
def searchAction (encode : String → String) (host : String)
    (hasSearchInput : Bool) (q : String) : Except String SearchOutcome :=
  if q = "" then .error "No query provided for search"
  else if hostIncludes host "linkedin.com" then
    .ok (.navigated ("https://www.linkedin.com/jobs/search?keywords=" ++ encode q))
  else if hostIncludes host "indeed.com" then
    .ok (.navigated ("https://www.indeed.com/jobs?q=" ++ encode q))
  else if hasSearchInput then
    .ok (.typed q)
  else
    .ok (.navigated ("https://www.google.com/search?q=site:" ++ host ++ "+" ++ encode q))

/-- C10: for every non-empty query the `search` action returns a result and
never throws, following the degradation order specific → generic → fallback:
a recognized host (LinkedIn or Indeed) gets a direct search URL; an
unrecognized host uses the generic on-page search input when one exists; and
with no such input the action ends in a constructed site-scoped external
(Google) search URL. -/
theorem search_fallback_order (encode : String → String) (host : String)
    (hasSearchInput : Bool) (q : String) (hq : q ≠ "") :
    (∃ out, searchAction encode host hasSearchInput q = .ok out) ∧
    (hostIncludes host "linkedin.com" = true →
      searchAction encode host hasSearchInput q =
        .ok (.navigated ("https://www.linkedin.com/jobs/search?keywords=" ++ encode q))) ∧
    (hostIncludes host "linkedin.com" = false →
      hostIncludes host "indeed.com" = true →
      searchAction encode host hasSearchInput q =
        .ok (.navigated ("https://www.indeed.com/jobs?q=" ++ encode q))) ∧
    (hostIncludes host "linkedin.com" = false →
      hostIncludes host "indeed.com" = false → hasSearchInput = true →
      searchAction encode host hasSearchInput q = .ok (.typed q)) ∧
    (hostIncludes host "linkedin.com" = false →
      hostIncludes host "indeed.com" = false → hasSearchInput = false →
      searchAction encode host hasSearchInput q =
        .ok (.navigated
          ("https://www.google.com/search?q=site:" ++ host ++ "+" ++ encode q))) := by
  unfold searchAction
  refine ⟨?_, ?_, ?_, ?_, ?_⟩
  · by_cases h1 : hostIncludes host "linkedin.com" = true <;>
      by_cases h2 : hostIncludes host "indeed.com" = true <;>
      cases hasSearchInput <;>
      simp [hq, h1, h2]
  · intro h1
    simp [hq, h1]
  · intro h1 h2
    simp [hq, h1, h2]
  · intro h1 h2 h3
    simp [hq, h1, h2, h3]
  · intro h1 h2 h3
    simp [hq, h1, h2, h3]

/-- Witness for C10: the theorem applied to an unrecognized host with no
search input and the identity encoder; the fallback branch fires concretely. -/
theorem search_fallback_order_witness :
    ("python developer" ≠ "" ∧
      ((∃ out, searchAction id "careers.example.org" false "python developer" = .ok out) ∧
      (hostIncludes "careers.example.org" "linkedin.com" = true →
        searchAction id "careers.example.org" false "python developer" =
          .ok (.navigated ("https://www.linkedin.com/jobs/search?keywords=" ++
            id "python developer"))) ∧
      (hostIncludes "careers.example.org" "linkedin.com" = false →
        hostIncludes "careers.example.org" "indeed.com" = true →
        searchAction id "careers.example.org" false "python developer" =
          .ok (.navigated ("https://www.indeed.com/jobs?q=" ++ id "python developer"))) ∧
      (hostIncludes "careers.example.org" "linkedin.com" = false →
        hostIncludes "careers.example.org" "indeed.com" = false → false = true →
        searchAction id "careers.example.org" false "python developer" =
          .ok (.typed "python developer")) ∧
      (hostIncludes "careers.example.org" "linkedin.com" = false →
        hostIncludes "careers.example.org" "indeed.com" = false → false = false →
        searchAction id "careers.example.org" false "python developer" =
          .ok (.navigated ("https://www.google.com/search?q=site:" ++
            "careers.example.org" ++ "+" ++ id "python developer"))))) :=
  ⟨by decide, search_fallback_order id "careers.example.org" false "python developer"
    (by decide)⟩

/-! ## Persistent task monitor (background service worker)

From the background service worker: `TaskPollingState` persisted in
`chrome.storage.local` under the single key `activeTask`; a 3-second
`setInterval` poll per task registered in `activePolling`; terminal statuses
stop the interval, with a `chrome.notifications.create` call in the
`completed`/`success` branch only; the `getTaskState` message answers with
whatever `activeTask` holds; startup cleanup forces hour-stale non-terminal
tasks to a timeout error.  Badge updates are pure UI and not modelled. -/

/-- The worker's `TaskPollingState` interface. -/
structure TaskPollingState where
  taskId : String
  status : String
  progress : Nat
  currentStep : String
  message : String
  thoughtProcess : List String
  lastUpdated : Int
deriving Repr, DecidableEq

/-- The backend status-poll response shape
(`{status, progress_percent, current_step, message, error_message}`);
optional fields may be absent. -/
structure BackendTaskResponse where
  status : String
  progress_percent : Option Nat
  current_step : Option String
  message : Option String
  error_message : Option String
deriving Repr, DecidableEq

/-- The thought-process append used by every updater in the worker:
`[...(arr || []).slice(-5), entry]`. -/
def pushThought (l : List String) (e : String) : List String :=
  sliceLast5 l ++ [e]

/-- The monitor's observable state: the `activeTask` storage slot, whether
the task's poll interval is registered in `activePolling`, and the
notifications created so far. -/
structure MonitorState where
  storage : Option TaskPollingState
  pollingActive : Bool
  notifications : List String
deriving Repr, DecidableEq

/-- `startPollingTask`'s storage write:
`chrome.storage.local.set({ activeTask: { ...initialState, taskId } })` —
one fixed key, whatever the task id. -/
def startPollingTaskStore (_storage : Option TaskPollingState)
    (taskId : String) (initialState : TaskPollingState) : Option TaskPollingState :=
  some { initialState with taskId := taskId }

/-- The `getTaskState` message handler: answers with
`chrome.storage.local.get(['activeTask'])`, ignoring which task was asked
about (the handler reads no task id at all). -/
def getTaskState (storage : Option TaskPollingState)
    (_requestedTaskId : String) : Option TaskPollingState :=
  storage

/-- The monitor state right after `startPollingTask(taskId, initialState)`:
initial state stored, poll interval registered, no notification yet. -/
def startedMonitor (taskId : String) (initialState : TaskPollingState) : MonitorState :=
  { storage := some { initialState with taskId := taskId },
    pollingActive := true, notifications := [] }

/-- One tick of `startPollingTask`'s 3-second `setInterval` callback.
`resp = none` models a failed fetch (`!response.ok` or a thrown error): the
tick logs and returns without touching state.  A tick only runs while the
interval is registered; after `stopPollingTask` has cleared it, a tick is a
no-op. -/
def pollTick (now : Int) (taskId : String) (initialState : TaskPollingState)
    (resp : Option BackendTaskResponse) (ms : MonitorState) : MonitorState :=
  if ms.pollingActive = false then ms
  else match resp with
  | none => ms
  | some data =>
    let currentState := ms.storage.getD initialState
    let base : TaskPollingState :=
      { taskId := taskId
        status := data.status
        progress := jsOrNat data.progress_percent currentState.progress
        currentStep := jsOrStr data.current_step currentState.currentStep
        message := jsOrStr data.message currentState.message
        thoughtProcess :=
          if jsTruthy data.current_step then
            pushThought currentState.thoughtProcess
              ("🔄 " ++ jsTemplate data.current_step)
          else currentState.thoughtProcess
        lastUpdated := now }
    if data.status = "completed" ∨ data.status = "success" then
      { storage := some { base with
          status := "complete"
          message := jsOrStr data.message "Task completed successfully!"
          progress := 100
          thoughtProcess := pushThought base.thoughtProcess "✅ Task completed!" },
        pollingActive := false,
        notifications := ms.notifications ++
          [jsOrStr data.message "Task completed successfully!"] }
    else if data.status = "failed" ∨ data.status = "error" then
      { storage := some { base with
          status := "error"
          message := jsOrStr data.error_message "Task failed"
          thoughtProcess := pushThought base.thoughtProcess
            ("❌ " ++ jsTemplate data.error_message) },
        pollingActive := false,
        notifications := ms.notifications }
    else if data.status = "waiting_intervention" then
      { storage := some { base with
          status := "waiting"
          message := "Waiting for your input..." },
        pollingActive := ms.pollingActive,
        notifications := ms.notifications }
    else
      { storage := some base,
        pollingActive := ms.pollingActive,
        notifications := ms.notifications }

/-- Run a sequence of poll ticks in order. -/
def runTicks (now : Int) (taskId : String) (initialState : TaskPollingState) :
    List (Option BackendTaskResponse) → MonitorState → MonitorState
  | [], ms => ms
  | r :: rest, ms =>
    runTicks now taskId initialState rest (pollTick now taskId initialState r ms)

/-- The startup cleanup block: a stored task older than one hour and
non-terminal is forced to a timeout error (and not re-polled); a fresh
non-terminal task resumes polling; a terminal task is left alone.  Returns
the storage after cleanup and whether polling was resumed. -/
def startupCleanup (now : Int) (stored : Option TaskPollingState) :
    Option TaskPollingState × Bool :=
  match stored with
  | none => (none, false)
  | some task =>
    if now - task.lastUpdated > 60 * 60 * 1000 then
      if task.status ≠ "complete" ∧ task.status ≠ "error" then
        (some { task with status := "error", message := "Task timed out" }, false)
      else (some task, false)
    else if task.status ≠ "complete" ∧ task.status ≠ "error" then
      (some task, true)
    else (some task, false)

/-- The `stepResult` message handler's storage update after the report
round-trips with backend response `json` (`status`/`progress` fall back to
the stored values under JS `||`). -/
def stepResultUpdate (now : Int) (stepName : Option String) (success : Bool)
    (jsonStatus : Option String) (jsonProgress : Option Nat)
    (st : TaskPollingState) : TaskPollingState :=
  { st with
    status := jsOrStr jsonStatus st.status
    progress := jsOrNat jsonProgress st.progress
    currentStep := jsOrStr stepName st.currentStep
    lastUpdated := now
    thoughtProcess := pushThought st.thoughtProcess
      ("🔄 " ++ jsTemplate stepName ++ " - " ++ (if success then "ok" else "fail")) }

/-! ## Popup status poller (`pollTaskStatus`) -/

/-- The popup's task state (the fields `pollTaskStatus` touches), plus a
count of the fetch attempts made. -/
structure PopupState where
  status : String
  message : String
  progress : Nat
  currentStep : String
  thoughtProcess : List String
  fetches : Nat
deriving Repr, DecidableEq

/-- `const maxAttempts = 60; // 5 minutes max` (at the 5-second re-poll
interval). -/
def maxAttempts : Nat := 60

/-- The popup's `pollTaskStatus` recursion: at entry, `attempts >=
maxAttempts` forces a timeout-error state with no further fetch; otherwise
one fetch happens — a failure (`none`) increments `attempts` and re-polls; a
response updates progress/step/thought-process, stops on a terminal or
waiting status, and otherwise increments `attempts` and re-polls after
5000 ms. -/
def popupPoll (resp : Nat → Option BackendTaskResponse) :
    Nat → PopupState → PopupState :=
  fun attempts st =>
    if _h : attempts ≥ maxAttempts then
      { st with status := "error", message := "Task timed out" }
    else
      match resp attempts with
      | none => popupPoll resp (attempts + 1) { st with fetches := st.fetches + 1 }
      | some data =>
        let st1 : PopupState :=
          { st with
            fetches := st.fetches + 1
            progress := jsOrNat data.progress_percent st.progress
            currentStep := jsOrStr data.current_step st.currentStep
            thoughtProcess :=
              if jsTruthy data.current_step then
                pushThought st.thoughtProcess ("🔄 " ++ jsTemplate data.current_step)
              else st.thoughtProcess }
        if data.status = "completed" ∨ data.status = "success" then
          { st1 with
            status := "complete"
            message := jsOrStr data.message "Task completed successfully!"
            progress := 100
            thoughtProcess := pushThought st1.thoughtProcess "✅ Task completed!" }
        else if data.status = "failed" ∨ data.status = "error" then
          { st1 with
            status := "error"
            message := jsOrStr data.error_message "Task failed"
            thoughtProcess := pushThought st1.thoughtProcess
              ("❌ " ++ jsTemplate data.error_message) }
        else if data.status = "waiting_intervention" then
          { st1 with
            status := "waiting"
            message := "Waiting for your input..."
            thoughtProcess := pushThought st1.thoughtProcess "⏸️ Human input required" }
        else popupPoll resp (attempts + 1) st1
termination_by attempts => maxAttempts - attempts
decreasing_by all_goals (simp only [maxAttempts] at *; omega)

/-! ### Monitor lemmas -/

lemma pollTick_inactive (now : Int) (taskId : String) (initialState : TaskPollingState)
    (r : Option BackendTaskResponse) (ms : MonitorState)
    (h : ms.pollingActive = false) :
    pollTick now taskId initialState r ms = ms := by
  simp [pollTick, h]

lemma runTicks_inactive (now : Int) (taskId : String) (initialState : TaskPollingState) :
    ∀ (ticks : List (Option BackendTaskResponse)) (ms : MonitorState),
      ms.pollingActive = false → runTicks now taskId initialState ticks ms = ms
  | [], ms, _ => rfl
  | r :: rest, ms, h => by
    rw [runTicks, pollTick_inactive now taskId initialState r ms h]
    exact runTicks_inactive now taskId initialState rest ms h

lemma pollTick_completed (now : Int) (taskId : String) (initialState : TaskPollingState)
    (resp : BackendTaskResponse) (ms : MonitorState)
    (h : ms.pollingActive = true)
    (h1 : resp.status = "completed" ∨ resp.status = "success") :
    (pollTick now taskId initialState (some resp) ms).pollingActive = false ∧
    (pollTick now taskId initialState (some resp) ms).notifications =
      ms.notifications ++ [jsOrStr resp.message "Task completed successfully!"] := by
  rcases h1 with h1 | h1 <;> simp [pollTick, h, h1]

lemma pollTick_failed (now : Int) (taskId : String) (initialState : TaskPollingState)
    (resp : BackendTaskResponse) (ms : MonitorState)
    (h : ms.pollingActive = true)
    (h1 : resp.status = "failed" ∨ resp.status = "error") :
    (pollTick now taskId initialState (some resp) ms).pollingActive = false ∧
    (pollTick now taskId initialState (some resp) ms).notifications =
      ms.notifications := by
  rcases h1 with h1 | h1 <;> simp [pollTick, h, h1]

/-- C4 (amended): the `complete` transition stops polling before (atomically
with) firing exactly one notification, and a second consecutive terminal tick
is a no-op — so even a poll sequence observing `completed` twice fires exactly
one notification and no tick runs after the first terminal one; but the
`failed`/`error` terminal transition stops polling with **zero** notifications
(only the `completed`/`success` branch calls `chrome.notifications.create`). -/
theorem monitor_notification_spec (now : Int) (taskId : String)
    (initialState : TaskPollingState) (resp : BackendTaskResponse) (ms : MonitorState) :
    (ms.pollingActive = false →
      pollTick now taskId initialState (some resp) ms = ms) ∧
    (ms.pollingActive = true → (resp.status = "completed" ∨ resp.status = "success") →
      (pollTick now taskId initialState (some resp) ms).pollingActive = false ∧
      (pollTick now taskId initialState (some resp) ms).notifications =
        ms.notifications ++ [jsOrStr resp.message "Task completed successfully!"]) ∧
    (ms.pollingActive = true → (resp.status = "failed" ∨ resp.status = "error") →
      (pollTick now taskId initialState (some resp) ms).pollingActive = false ∧
      (pollTick now taskId initialState (some resp) ms).notifications =
        ms.notifications) ∧
    (∀ ticks : List (Option BackendTaskResponse), ms.pollingActive = false →
      runTicks now taskId initialState ticks ms = ms) ∧
    (ms.pollingActive = true → (resp.status = "completed" ∨ resp.status = "success") →
      (runTicks now taskId initialState [some resp, some resp] ms).notifications =
        ms.notifications ++ [jsOrStr resp.message "Task completed successfully!"]) := by
  refine ⟨pollTick_inactive now taskId initialState (some resp) ms,
    pollTick_completed now taskId initialState resp ms,
    pollTick_failed now taskId initialState resp ms,
    fun ticks h => runTicks_inactive now taskId initialState ticks ms h, ?_⟩
  intro h h1
  obtain ⟨hpa, hnot⟩ := pollTick_completed now taskId initialState resp ms h h1
  show (runTicks now taskId initialState [some resp]
      (pollTick now taskId initialState (some resp) ms)).notifications = _
  rw [runTicks, pollTick_inactive now taskId initialState (some resp) _ hpa,
    runTicks, hnot]

/-- The initial state and responses used in the monitor counterexamples and
witnesses. -/
def demoInit : TaskPollingState :=
  ⟨"t1", "executing", 10, "searching", "working", [], 0⟩

/-- A terminal-failure backend response. -/
def failedResp : BackendTaskResponse :=
  ⟨"failed", none, none, none, some "boom"⟩

/-- A successful-completion backend response. -/
def completedResp : BackendTaskResponse :=
  ⟨"completed", some 90, some "final", some "All done!", none⟩

/-- A non-terminal backend response. -/
def executingResp : BackendTaskResponse :=
  ⟨"executing", some 50, some "step", none, none⟩

/-- C4 counterexample: a task reaching the terminal `failed`/`error` status
produces **no** notification — the tick stops polling, stores status `error`,
and the notification list stays empty, contradicting "each terminal
transition (complete or error) produces exactly one notification". -/
theorem monitor_error_no_notification_counterexample :
    (pollTick 5 "t1" demoInit (some failedResp)
        (startedMonitor "t1" demoInit)).notifications = [] ∧
    ((pollTick 5 "t1" demoInit (some failedResp)
        (startedMonitor "t1" demoInit)).storage.map TaskPollingState.status) =
      some "error" ∧
    (pollTick 5 "t1" demoInit (some failedResp)
        (startedMonitor "t1" demoInit)).pollingActive = false := by
  decide

/-- Witness for C4 (amended): the theorem applied to a concrete freshly
started monitor and the concrete completion response; the double-`completed`
conjunct fires with exactly one notification. -/
theorem monitor_notification_spec_witness :
    ((startedMonitor "t1" demoInit).pollingActive = true ∧
      (completedResp.status = "completed" ∨ completedResp.status = "success")) ∧
    (runTicks 5 "t1" demoInit [some completedResp, some completedResp]
        (startedMonitor "t1" demoInit)).notifications =
      (startedMonitor "t1" demoInit).notifications ++
        [jsOrStr completedResp.message "Task completed successfully!"] :=
  ⟨⟨rfl, Or.inl rfl⟩,
    ((monitor_notification_spec 5 "t1" demoInit completedResp
      (startedMonitor "t1" demoInit)).2.2.2.2) rfl (Or.inl rfl)⟩

/-- C5 (amended): the monitor persists a single `activeTask` record rather
than a per-taskId map — starting background monitoring of a second task
overwrites the first task's persisted state, and `getTaskState` answers with
that single record whatever task id is asked about. -/
theorem monitor_single_key_spec (st : Option TaskPollingState)
    (t1 t2 anyId : String) (s1 s2 : TaskPollingState) :
    startPollingTaskStore (startPollingTaskStore st t1 s1) t2 s2 =
      some { s2 with taskId := t2 } ∧
    getTaskState st anyId = st :=
  ⟨rfl, rfl⟩

/-- Two distinct in-flight task states used in the C5 counterexample. -/
def demoStateA : TaskPollingState := ⟨"A", "executing", 10, "stepA", "mA", [], 0⟩

/-- Second demo task state (distinct from `demoStateA`). -/
def demoStateB : TaskPollingState := ⟨"B", "planning", 0, "stepB", "mB", [], 1⟩

/-- C5 counterexample: after starting monitoring of task B, task A's
persisted state is gone — `getTaskState "A"` answers with B's state, not A's,
refuting "the first task's persisted state is left unchanged" and
"getTaskState(taskId) returns the state of the requested task". -/
theorem monitor_single_key_counterexample :
    getTaskState (startPollingTaskStore
        (startPollingTaskStore none "A" demoStateA) "B" demoStateB) "A" =
      some { demoStateB with taskId := "B" } ∧
    getTaskState (startPollingTaskStore
        (startPollingTaskStore none "A" demoStateA) "B" demoStateB) "A" ≠
      some { demoStateA with taskId := "A" } := by
  decide

/-- C7: on startup, a persisted non-terminal task whose `lastUpdated` is more
than one hour old is forced to `error` with the message `Task timed out` and
not re-polled; a fresher non-terminal task is resumed unchanged; a task
already terminal (`complete`/`error`) is left unchanged and not re-polled. -/
theorem monitor_startup_recovery (now : Int) (task : TaskPollingState) :
    (task.status ≠ "complete" → task.status ≠ "error" →
      now - task.lastUpdated > 3600000 →
      startupCleanup now (some task) =
        (some { task with status := "error", message := "Task timed out" }, false)) ∧
    (task.status ≠ "complete" → task.status ≠ "error" →
      ¬(now - task.lastUpdated > 3600000) →
      startupCleanup now (some task) = (some task, true)) ∧
    ((task.status = "complete" ∨ task.status = "error") →
      startupCleanup now (some task) = (some task, false)) := by
  refine ⟨?_, ?_, ?_⟩
  · intro h1 h2 h3
    simp only [startupCleanup]
    rw [if_pos (by simpa using h3), if_pos ⟨h1, h2⟩]
  · intro h1 h2 h3
    simp only [startupCleanup]
    rw [if_neg (by simpa using h3), if_pos ⟨h1, h2⟩]
  · intro h1
    have hne : ¬(task.status ≠ "complete" ∧ task.status ≠ "error") := by
      rcases h1 with h1 | h1 <;> simp [h1]
    simp only [startupCleanup]
    by_cases h3 : now - task.lastUpdated > 60 * 60 * 1000
    · rw [if_pos (by simpa using h3), if_neg hne]
    · rw [if_neg (by simpa using h3), if_neg hne]

/-- The stale executing task of the spec's staleness-recovery test: status
`executing`, `lastUpdated` two hours before the startup instant. -/
def demoStaleTask : TaskPollingState := ⟨"t1", "executing", 40, "step", "m", [], 0⟩

/-- Witness for C7: the theorem applied at a startup instant two hours past
`lastUpdated`; the stale branch fires concretely — status forced to `error`
with `Task timed out`, polling not resumed. -/
theorem monitor_startup_recovery_witness :
    ((demoStaleTask.status ≠ "complete" → demoStaleTask.status ≠ "error" →
      (7200000 : Int) - demoStaleTask.lastUpdated > 3600000 →
      startupCleanup 7200000 (some demoStaleTask) =
        (some { demoStaleTask with status := "error", message := "Task timed out" },
          false)) ∧
    (demoStaleTask.status ≠ "complete" → demoStaleTask.status ≠ "error" →
      ¬((7200000 : Int) - demoStaleTask.lastUpdated > 3600000) →
      startupCleanup 7200000 (some demoStaleTask) = (some demoStaleTask, true)) ∧
    ((demoStaleTask.status = "complete" ∨ demoStaleTask.status = "error") →
      startupCleanup 7200000 (some demoStaleTask) = (some demoStaleTask, false))) ∧
    startupCleanup 7200000 (some demoStaleTask) =
      (some { demoStaleTask with status := "error", message := "Task timed out" },
        false) :=
  ⟨monitor_startup_recovery 7200000 demoStaleTask, by decide⟩

/-! ### C8: poll attempt ceiling -/

lemma pollTick_nonterminal_keeps (now : Int) (taskId : String)
    (initialState : TaskPollingState) (resp : BackendTaskResponse) (ms : MonitorState)
    (h1 : resp.status ≠ "completed") (h2 : resp.status ≠ "success")
    (h3 : resp.status ≠ "failed") (h4 : resp.status ≠ "error") :
    (pollTick now taskId initialState (some resp) ms).pollingActive =
      ms.pollingActive := by
  by_cases h : ms.pollingActive = false
  · rw [pollTick_inactive now taskId initialState (some resp) ms h]
  · by_cases hw : resp.status = "waiting_intervention" <;>
      simp [pollTick, h, h1, h2, h3, h4, hw]

lemma runTicks_nonterminal_keeps (now : Int) (taskId : String)
    (initialState : TaskPollingState) (resp : BackendTaskResponse)
    (h1 : resp.status ≠ "completed") (h2 : resp.status ≠ "success")
    (h3 : resp.status ≠ "failed") (h4 : resp.status ≠ "error") :
    ∀ (n : Nat) (ms : MonitorState),
      (runTicks now taskId initialState (List.replicate n (some resp))
        ms).pollingActive = ms.pollingActive
  | 0, ms => rfl
  | n+1, ms => by
    rw [List.replicate_succ, runTicks]
    rw [runTicks_nonterminal_keeps now taskId initialState resp h1 h2 h3 h4 n _]
    exact pollTick_nonterminal_keeps now taskId initialState resp ms h1 h2 h3 h4

lemma popupPoll_nonterminal (resp : Nat → Option BackendTaskResponse)
    (hresp : ∀ i data, resp i = some data →
      data.status ≠ "completed" ∧ data.status ≠ "success" ∧
      data.status ≠ "failed" ∧ data.status ≠ "error" ∧
      data.status ≠ "waiting_intervention") :
    ∀ (k a : Nat) (st : PopupState), a + k = maxAttempts →
      (popupPoll resp a st).status = "error" ∧
      (popupPoll resp a st).message = "Task timed out" ∧
      (popupPoll resp a st).fetches = st.fetches + k := by
  intro k
  induction k with
  | zero =>
    intro a st hak
    rw [popupPoll]
    simp [show a ≥ maxAttempts by omega]
  | succ k ih =>
    intro a st hak
    have hlt : ¬ a ≥ maxAttempts := by omega
    rw [popupPoll]
    simp only [hlt, dite_false, dif_neg, not_false_iff]
    cases hr : resp a with
    | none =>
      obtain ⟨e1, e2, e3⟩ := ih (a+1) { st with fetches := st.fetches + 1 } (by omega)
      refine ⟨e1, e2, ?_⟩
      rw [e3]
      simp
      omega
    | some data =>
      obtain ⟨d1, d2, d3, d4, d5⟩ := hresp a data hr
      simp only [d1, d2, d3, d4, d5, false_or, or_self, if_false, ite_false,
        not_false_iff]
      refine ⟨(ih (a+1) _ (by omega)).1, (ih (a+1) _ (by omega)).2.1, ?_⟩
      rw [(ih (a+1) _ (by omega)).2.2]
      simp
      omega

/-- C8 (amended): the 60-attempt ceiling (≈5 minutes at the 5-second re-poll
delay) belongs to the popup's `pollTaskStatus`, which forces the task to a
timeout-error state after exactly 60 fetch attempts on a never-terminal
backend; the Persistent Monitor's own background poll loop (3-second
interval) has **no** attempt ceiling — after any number of non-terminal
ticks its interval is still registered. -/
theorem monitor_poll_ceiling_spec (now : Int) (taskId : String)
    (initialState : TaskPollingState) :
    (∀ resp : BackendTaskResponse, resp.status ≠ "completed" →
      resp.status ≠ "success" → resp.status ≠ "failed" → resp.status ≠ "error" →
      ∀ n : Nat,
        (runTicks now taskId initialState (List.replicate n (some resp))
          (startedMonitor taskId initialState)).pollingActive = true) ∧
    maxAttempts = 60 ∧
    (∀ st : PopupState,
      (popupPoll (fun _ => some executingResp) 0 st).status = "error" ∧
      (popupPoll (fun _ => some executingResp) 0 st).message = "Task timed out" ∧
      (popupPoll (fun _ => some executingResp) 0 st).fetches = st.fetches + 60) := by
  refine ⟨?_, rfl, ?_⟩
  · intro resp h1 h2 h3 h4 n
    rw [runTicks_nonterminal_keeps now taskId initialState resp h1 h2 h3 h4 n _]
    rfl
  · intro st
    exact popupPoll_nonterminal (fun _ => some executingResp)
      (fun i data hd => by
        cases hd
        exact ⟨by decide, by decide, by decide, by decide, by decide⟩)
      60 0 st rfl

set_option maxRecDepth 4000 in
/-- C8 counterexample: after 61 straight non-terminal poll ticks, the
background monitor's poll interval is still active — the Persistent Monitor's
backend-status polling has no 60-attempt ceiling and is never forced into a
timeout-error state. -/
theorem monitor_no_ceiling_counterexample :
    (runTicks 1 "t1" demoInit (List.replicate 61 (some executingResp))
        (startedMonitor "t1" demoInit)).pollingActive = true ∧
    ((runTicks 1 "t1" demoInit (List.replicate 61 (some executingResp))
        (startedMonitor "t1" demoInit)).storage.map TaskPollingState.status) =
      some "executing" := by
  constructor
  · rw [runTicks_nonterminal_keeps 1 "t1" demoInit executingResp
      (by decide) (by decide) (by decide) (by decide) 61 _]
    rfl
  · decide

/-- Witness for C8 (amended): the theorem applied at concrete parameters; its
background conjunct instantiated at the concrete non-terminal response and 61
ticks, and its popup conjunct at a concrete popup state. -/
theorem monitor_poll_ceiling_spec_witness :
    (executingResp.status ≠ "completed" ∧ executingResp.status ≠ "success" ∧
      executingResp.status ≠ "failed" ∧ executingResp.status ≠ "error") ∧
    (runTicks 2 "t2" demoInit (List.replicate 100 (some executingResp))
        (startedMonitor "t2" demoInit)).pollingActive = true ∧
    (popupPoll (fun _ => some executingResp) 0
        ⟨"executing", "m", 0, "c", [], 0⟩).status = "error" ∧
    (popupPoll (fun _ => some executingResp) 0
        ⟨"executing", "m", 0, "c", [], 0⟩).fetches = 60 :=
  ⟨⟨by decide, by decide, by decide, by decide⟩,
    (monitor_poll_ceiling_spec 2 "t2" demoInit).1 executingResp
      (by decide) (by decide) (by decide) (by decide) 100,
    ((monitor_poll_ceiling_spec 2 "t2" demoInit).2.2
      ⟨"executing", "m", 0, "c", [], 0⟩).1,
    ((monitor_poll_ceiling_spec 2 "t2" demoInit).2.2
      ⟨"executing", "m", 0, "c", [], 0⟩).2.2⟩

/-! ### C9: the thought-process log bound -/

lemma pushThought_length (l : List String) (e : String) :
    (pushThought l e).length = min l.length 5 + 1 := by
  simp [pushThought, sliceLast5]
  omega

lemma pushThought_suffix (l : List String) (e : String) :
    (pushThought l e) <:+ (l ++ [e]) := by
  obtain ⟨t, ht⟩ := List.drop_suffix (l.length - 5) l
  exact ⟨t, by rw [pushThought, sliceLast5, ← List.append_assoc, ht]⟩

lemma pollTick_thought_bound (now : Int) (taskId : String)
    (initialState : TaskPollingState) (resp : BackendTaskResponse)
    (ms : MonitorState) :
    ((pollTick now taskId initialState (some resp) ms).storage.getD
        initialState).thoughtProcess.length ≤
      max ((ms.storage.getD initialState).thoughtProcess.length) 6 := by
  by_cases hpa : ms.pollingActive = false
  · rw [pollTick_inactive now taskId initialState (some resp) ms hpa]
    omega
  · by_cases hc : resp.status = "completed" ∨ resp.status = "success"
    · rcases hc with h | h <;> by_cases hjt : jsTruthy resp.current_step = true <;>
        simp [pollTick, hpa, h, hjt, pushThought_length]
    · by_cases hf : resp.status = "failed" ∨ resp.status = "error"
      · rcases hf with h | h <;> by_cases hjt : jsTruthy resp.current_step = true <;>
          simp [pollTick, hpa, h, hjt, pushThought_length]
      · obtain ⟨h1, h2⟩ := not_or.mp hc
        obtain ⟨h3, h4⟩ := not_or.mp hf
        by_cases hw : resp.status = "waiting_intervention" <;>
          by_cases hjt : jsTruthy resp.current_step = true <;>
          simp [pollTick, hpa, h1, h2, h3, h4, hw, hjt, pushThought_length]

/-- C9 (amended): the thought-process log is bounded, but by **6** entries,
not 5: every append keeps the last 5 previous entries plus the new one
(`[...arr.slice(-5), entry]`), so an update of a log of length `k` yields
length `min k 5 + 1 ≤ 6`, keeping only the most recent entries (the result is
a suffix of the old log extended by the new entry); the step-result handler's
update obeys the same bound, and a poll tick never leaves the stored log
longer than `max` of its previous length and 6. -/
theorem thought_ring_spec (l : List String) (e : String) :
    (pushThought l e).length = min l.length 5 + 1 ∧
    (pushThought l e).length ≤ 6 ∧
    (pushThought l e) <:+ (l ++ [e]) ∧
    (∀ (now : Int) (stepName : Option String) (success : Bool)
      (jsonStatus : Option String) (jsonProgress : Option Nat)
      (st : TaskPollingState),
      (stepResultUpdate now stepName success jsonStatus jsonProgress
        st).thoughtProcess.length ≤ 6) ∧
    (∀ (now : Int) (taskId : String) (initialState : TaskPollingState)
      (resp : BackendTaskResponse) (ms : MonitorState),
      ((pollTick now taskId initialState (some resp) ms).storage.getD
          initialState).thoughtProcess.length ≤
        max ((ms.storage.getD initialState).thoughtProcess.length) 6) := by
  refine ⟨pushThought_length l e, ?_, pushThought_suffix l e, ?_, ?_⟩
  · rw [pushThought_length]
    omega
  · intro now stepName success jsonStatus jsonProgress st
    simp [stepResultUpdate, pushThought_length]
  · intro now taskId initialState resp ms
    exact pollTick_thought_bound now taskId initialState resp ms

/-- C9 counterexample: the step-result handler applied to a persisted state
whose log already has 5 entries (the claimed bound) produces a log of 6
entries — the "last 5" bound of the claim is off by one. -/
theorem thought_ring_counterexample :
    (stepResultUpdate 99 (some "step X") true none none
        ⟨"t1", "executing", 10, "s", "m", ["a", "b", "c", "d", "e"], 0⟩).thoughtProcess =
      ["a", "b", "c", "d", "e", "🔄 step X - ok"] ∧
    ¬((stepResultUpdate 99 (some "step X") true none none
        ⟨"t1", "executing", 10, "s", "m", ["a", "b", "c", "d", "e"], 0⟩).thoughtProcess.length
      ≤ 5) := by
  decide

end JobAgent
